import Mathlib

/-!
Verification of the keyring-search repository: a shallow embedding of its
search abstraction (src/search.rs, src/error.rs), the mock backend
(src/mock.rs), the Windows enumerate-and-match backend (src/windows.rs),
the macOS backend (src/macos.rs), the keyutils backend (src/keyutils.rs)
and the result presenter (src/lib.rs, List::list_all / List::list_max),
together with theorems settling the specification claims.

Rust HashMap values are modelled as association lists read through
List.lookup (first binding wins); machine integers i64 are modelled as Int
(their overflow is unreachable at the collection sizes involved); the
external regex crate is modelled from the spec where noted.
-/

namespace KeyringSearch

/-- src/error.rs: the closed error taxonomy Error. -/
inductive Error where
  | SearchError (reason : String)
  | Unexpected (reason : String)
  | NoResults
deriving DecidableEq

/-- Rust HashMap insert, on the association-list model: the new binding is
prepended, so List.lookup (which returns the first binding) sees the newest
value, matching HashMap overwrite semantics. -/
def hmInsert {β : Type} (m : List (String × β)) (k : String) (v : β) : List (String × β) :=
  (k, v) :: m

/-- Rust HashMap remove, on the association-list model: every binding of the
key is dropped, so subsequent lookups miss, matching HashMap removal. -/
def hmRemove {β : Type} (m : List (String × β)) (k : String) : List (String × β) :=
  m.filter (fun p => p.1 != k)

/-- The inner attribute map of src/search.rs: attribute name to value. -/
abbrev InnerMap := List (String × String)

/-- The outer result map of src/search.rs: result id to attribute map. -/
abbrev OuterMap := List (String × InnerMap)

/-- src/search.rs: CredentialSearchResult, the bilevel map in a Result. -/
abbrev CredentialSearchResult := Except Error OuterMap

/-- src/search.rs: the Limit enum (All or Max of an i64). -/
inductive Limit where
  | All
  | Max (n : Int)

/-- Rust str::to_ascii_lowercase: Char.toLower lowercases exactly the ASCII
uppercase letters, as the Rust method does. -/
def asciiLowercase (s : String) : String :=
  String.mk (s.data.map Char.toLower)

/-- Boolean unanchored infix test on character lists, via List.isPrefixOf. -/
def infixOf : List Char → List Char → Bool
  | needle, [] => needle.isEmpty
  | needle, c :: rest => needle.isPrefixOf (c :: rest) || infixOf needle rest

/-- Case-insensitive unanchored substring test (ASCII case folding): does the
haystack contain the needle, ignoring ASCII case? -/
def ciContains (hay needle : String) : Bool :=
  infixOf (asciiLowercase needle).data (asciiLowercase hay).data

/-- Modelled from the spec: the syntax check of the external regex crate's
parser (Regex::new), restricted to the error class the spec names, an
unbalanced character class. The scanner tracks whether it is inside a
character class; a class left open at the end of the pattern is the error.
Escapes and other regex error classes are outside the modelled fragment. -/
def scanUnclosed : List Char → Bool → Bool
  | [], inClass => inClass
  | c :: rest, inClass =>
    if inClass then
      if c = ']' then scanUnclosed rest false else scanUnclosed rest true
    else
      if c = '[' then scanUnclosed rest true else scanUnclosed rest false

/-- Modelled from the spec: stripping the case-insensitive marker prefix
addded by the backends, so that the remaining body is the caller's query. -/
def stripCI (p : String) : String :=
  match p.data with
  | '(' :: '?' :: 'i' :: ')' :: rest => String.mk rest
  | _ => p

/-- The regex metacharacters; a query containing none of them is a literal
query in the sense of the spec's Match Engine section. -/
def metaChars : List Char :=
  ['.', '^', '$', '*', '+', '?', '(', ')', '[', ']', '\x7b', '\x7d', '|', '\\']

/-- A literal query string: one containing no regex metacharacters. -/
def isLiteralPattern (q : String) : Bool :=
  q.data.all (fun c => !(metaChars.contains c))

/-- Modelled from the spec: Regex::new of the external regex crate composed
with is_match, as used by the mock and Windows backends on patterns of the
form "(?i)" ++ query. A pattern with an unclosed character class fails with
the parser diagnostic; otherwise the compiled matcher performs the spec's
case-insensitive unanchored substring search of the pattern body (the
semantics the spec assigns to literal queries; non-literal valid patterns
are outside the modelled fragment and no theorem relies on them). -/
def regexNew (pattern : String) : Except String (String → Bool) :=
  if scanUnclosed pattern.data false then
    .error "regex parse error: unclosed character class"
  else
    .ok (fun hay => ciContains hay (stripCI pattern))

/-- src/mock.rs: the MockData record (service, target, user). -/
structure MockData where
  service : String
  target : String
  user : String
deriving DecidableEq

/-- src/mock.rs: one iteration of the result loop's inner_map updates: the
shared inner_map receives User, Service and Target (in that order) for the
current matched credential. -/
def tripleInner (r : MockData) (prev : InnerMap) : InnerMap :=
  hmInsert (hmInsert (hmInsert prev "User" r.user) "Service" r.service) "Target" r.target

/-- src/mock.rs: the result-assembly loop of search_by_user / _service /
_target: count increments, the reused inner_map is overwritten with the
current credential's fields, and its clone is inserted into the outer map
under the key count.to_string(). -/
def searchLoop : List MockData → Nat → InnerMap → OuterMap → Nat × InnerMap × OuterMap
  | [], count, inner, outer => (count, inner, outer)
  | r :: rest, count, inner, outer =>
    searchLoop rest (count + 1) (tripleInner r inner)
      (hmInsert outer (Nat.repr (count + 1)) (tripleInner r inner))

/-- src/mock.rs: search_by_user / search_by_service / search_by_target over
the field selector: collect the credentials whose selected field matches,
assemble the bilevel map, and return NoResults when the count is zero. -/
def search_by (field : MockData → String) (is_match : String → Bool)
    (store : List MockData) : CredentialSearchResult :=
  let results := store.filter (fun credential => is_match (field credential))
  let st := searchLoop results 0 [] []
  if st.1 = 0 then .error .NoResults else .ok st.2.2

/-- src/mock.rs: MockCredentialSearch::by. The pattern "(?i)" ++ query is
compiled first (failure becomes SearchError with the parser diagnostic),
then the lowercased dimension dispatches to the three field searches, any
other dimension being Unexpected. -/
def mockBy (store : List MockData) (dim query : String) : CredentialSearchResult :=
  match regexNew ("(?i)" ++ query) with
  | .error err => .error (.SearchError ("Regex Error, " ++ err))
  | .ok regex =>
    match asciiLowercase dim with
    | "user" => search_by MockData.user regex store
    | "service" => search_by MockData.service regex store
    | "target" => search_by MockData.target regex store
    | _ => .error (.Unexpected "Mock by parameter")

/-- src/windows.rs: the HumanTime structure (u16 fields as Nat). -/
structure HumanTime where
  day_of_week : String
  day : Nat
  hour : Nat
  minute : Nat
  second : Nat
  month : String
  year : Nat
deriving DecidableEq

/-- Zero padding to two digits, as Rust's width-2 zero-pad format spec. -/
def pad2 (n : Nat) : String :=
  if n < 10 then "0" ++ Nat.repr n else Nat.repr n

/-- src/windows.rs: the Display implementation for HumanTime. -/
def HumanTime.render (t : HumanTime) : String :=
  t.day_of_week ++ ", " ++ Nat.repr t.day ++ " " ++ t.month ++ ", " ++ Nat.repr t.year
    ++ " at " ++ pad2 t.hour ++ ":" ++ pad2 t.minute ++ ":" ++ pad2 t.second

/-- src/windows.rs: the WinCredential record (CRED_TYPE and CRED_PERSIST are
u32, modelled as Nat). -/
structure WinCredential where
  username : String
  target_name : String
  target_alias : String
  comment : String
  cred_type : Nat
  last_written : HumanTime
  persist : Nat
deriving DecidableEq

/-- src/windows.rs: the WinSearchType enum. -/
inductive WinSearchType where
  | Target
  | Service
  | User
deriving DecidableEq

/-- src/windows.rs: the haystack chosen per search type inside search. -/
def winHaystack (t : WinSearchType) (credential : WinCredential) : String :=
  match t with
  | .Target => credential.target_name
  | .Service => credential.comment
  | .User => credential.username

/-- src/windows.rs: match_cred_type. -/
def match_cred_type (credential : Nat) : Except Error String :=
  match credential with
  | 1 => .ok "Generic"
  | 2 => .ok "Domain Password"
  | 3 => .ok "Domain Certificate"
  | 4 => .ok "Domain Visible Password"
  | 5 => .ok "Generic Certificate"
  | 6 => .ok "Domain Extended"
  | 7 => .ok "Maximum"
  | 1007 => .ok "Maximum Ex"
  | _ => .error (.Unexpected "cred_type")

/-- src/windows.rs: match_persist_type. -/
def match_persist_type (credential : Nat) : Except Error String :=
  match credential with
  | 0 => .ok "None"
  | 1 => .ok "Session"
  | 2 => .ok "Local Machine"
  | 3 => .ok "Enterprise"
  | _ => .error (.Unexpected "persist_type")

/-- src/windows.rs: the search function. The enumerated credential list
stands for get_all_credentials() (an opaque Win32 data source); the pattern
is compiled, every credential whose chosen haystack matches is kept in
enumeration order, and an empty result list becomes NoResults. -/
def winSearch (credentials : List WinCredential) (search_type : WinSearchType)
    (search_parameter : String) : Except Error (List WinCredential) :=
  match regexNew ("(?i)" ++ search_parameter) with
  | .error err => .error (.SearchError ("Regex Error, " ++ err))
  | .ok regex =>
    let results := credentials.filter (fun credential => regex (winHaystack search_type credential))
    if results.isEmpty then .error .NoResults else .ok results

/-- src/windows.rs: search_type, the dimension dispatch in front of search. -/
def win_search_type (credentials : List WinCredential) (dim query : String) :
    Except Error (List WinCredential) :=
  match asciiLowercase dim with
  | "target" => winSearch credentials .Target query
  | "service" => winSearch credentials .Service query
  | "user" => winSearch credentials .User query
  | _ => .error (.SearchError "Invalid search parameter, not Target, Service, or User")

/-- src/windows.rs: the result-assembly loop of WinCredentialSearch::by: a
fresh inner map per credential receives Comment, User, Type, Last Written,
Persist and Target (in that order), the type and persist translations
aborting the whole call on failure. -/
def winAssemble : List WinCredential → Nat → OuterMap → Except Error OuterMap
  | [], _, outer => .ok outer
  | result :: rest, count, outer =>
    match match_cred_type result.cred_type with
    | .error e => .error e
    | .ok ctype =>
      match match_persist_type result.persist with
      | .error e => .error e
      | .ok ptype =>
        winAssemble rest (count + 1)
          (hmInsert outer (Nat.repr (count + 1))
            (hmInsert (hmInsert (hmInsert (hmInsert (hmInsert (hmInsert []
              "Comment" result.comment) "User" result.username) "Type" ctype)
              "Last Written" result.last_written.render) "Persist" ptype)
              "Target" result.target_name))

/-- src/windows.rs: WinCredentialSearch::by, dispatching then assembling. -/
def winBy (credentials : List WinCredential) (dim query : String) : CredentialSearchResult :=
  match win_search_type credentials dim query with
  | .error err => .error err
  | .ok results => winAssemble results 0 []

/-- src/macos.rs: the MacSearchType enum. -/
inductive MacSearchType where
  | Label
  | Service
  | Account
deriving DecidableEq

/-- src/macos.rs: the dimension dispatch table of search. -/
def macSearchType (s : String) : Option MacSearchType :=
  match s with
  | "label" => some .Label
  | "service" => some .Service
  | "account" => some .Account
  | _ => none

/-- src/macos.rs: to_credential_search_result: a missing item dictionary is
NoResults; otherwise the labl attribute is removed (defaulting to EMPTY
LABEL) and becomes the outer key of the remaining attributes. -/
def to_credential_search_result (item : Option InnerMap) (outer : OuterMap) :
    Except Error OuterMap :=
  match item with
  | none => .error .NoResults
  | some result =>
    let label := (List.lookup "labl" result).getD "EMPTY LABEL"
    .ok (hmInsert outer label (hmRemove result "labl"))

/-- src/macos.rs: the item loop of search, aborting on the first failure. -/
def macosLoop : List (Option InnerMap) → OuterMap → Except Error OuterMap
  | [], outer => .ok outer
  | item :: rest, outer =>
    match to_credential_search_result item outer with
    | .error err => .error err
    | .ok outer' => macosLoop rest outer'

/-- src/macos.rs: the search function. The native ItemSearchOptions call is
an opaque data source, passed as the outcome per search type: any native
failure becomes NoResults, and a native success list is folded into the
outer map, which is returned as a success even when it is empty. -/
def macosSearch (dim : String)
    (native : MacSearchType → Except Unit (List (Option InnerMap))) :
    CredentialSearchResult :=
  match macSearchType (asciiLowercase dim) with
  | none => .error (.SearchError "Invalid search parameter, not Label, Service, or Account")
  | some t =>
    match native t with
    | .error _ => .error .NoResults
    | .ok results => macosLoop results []

/-- src/keyutils.rs: the KeyType enum of the linux-keyutils crate. -/
inductive KeyType where
  | KeyRing
  | BigKey
  | Logon
  | User
deriving DecidableEq

/-- src/keyutils.rs: get_key_type. -/
def get_key_type (key_type : KeyType) : String :=
  match key_type with
  | .KeyRing => "KeyRing"
  | .BigKey => "BigKey"
  | .Logon => "Logon"
  | .User => "User"

/-- The permission bit constants of the external linux-keyutils crate paired
with their keyctl display characters, as laid out in get_permission_chars
(VIEW 0x01, READ 0x02, WRITE 0x04, SEARCH 0x08, LINK 0x10, SETATTR 0x20,
ALL 0x3f). -/
def permPairs : List (Nat × Char) :=
  [(1, 'v'), (2, 'r'), (4, 'w'), (8, 's'), (16, 'l'), (32, 'a'), (63, '-')]

/-- src/keyutils.rs: get_permission_chars: a leading dash, then one
character per permission in reverse table order, dash when the bit is
clear. -/
def get_permission_chars (permission_data : Nat) : String :=
  String.mk ('-' :: (permPairs.reverse.map
    (fun p => if permission_data.land p.1 != 0 then p.2 else '-')))

/-- src/keyutils.rs: the keyring identifiers accepted by search_by_keyring. -/
inductive KeyRingIdentifier where
  | Thread
  | Process
  | Session
  | User
  | UserSession
  | Group
deriving DecidableEq

/-- src/keyutils.rs: the identifier dispatch table of search_by_keyring. -/
def keyringIdent (s : String) : Option KeyRingIdentifier :=
  match s with
  | "thread" => some .Thread
  | "process" => some .Process
  | "session" => some .Session
  | "user" => some .User
  | "user session" => some .UserSession
  | "group" => some .Group
  | _ => none

/-- src/keyutils.rs: the error cases of the native keyctl search. -/
inductive KeyErr where
  | KeyDoesNotExist
  | Other (s : String)
deriving DecidableEq

/-- src/keyutils.rs: the metadata of a found key, as read by
search_by_keyring (description, gid, uid, the relevant permission byte and
the key type). -/
structure KeyMeta where
  description : String
  gid : Nat
  uid : Nat
  permByte : Nat
  ktype : KeyType
deriving DecidableEq

/-- src/keyutils.rs: a key returned by the native keyctl search: its id and
the outcome of the metadata read. -/
structure FoundKey where
  id : Int
  metadata : Except String KeyMeta

/-- src/keyutils.rs: the opaque kernel keyctl interface: the outcome of
KeyRing::from_special_id and of ring.search per query. -/
structure KeyutilsEnv where
  ringFromSpecialId : Except String Unit
  ringSearch : String → Except KeyErr FoundKey

/-- src/keyutils.rs: search_by_keyring: identifier dispatch, ring lookup,
native search (a missing key becoming NoResults), metadata read, then a
single-entry outer map keyed by the id and description. -/
def search_by_keyring (env : KeyutilsEnv) (dim query : String) : CredentialSearchResult :=
  match keyringIdent dim with
  | none => .error (.SearchError
      "must match keyutils keyring identifiers: thread, process, session, user, user session, group")
  | some _ =>
    match env.ringFromSpecialId with
    | .error err => .error (.SearchError err)
    | .ok _ =>
      match env.ringSearch query with
      | .error .KeyDoesNotExist => .error .NoResults
      | .error (.Other err) => .error (.SearchError err)
      | .ok result =>
        match result.metadata with
        | .error err => .error (.SearchError err)
        | .ok result_data =>
          .ok (hmInsert []
            ("ID: " ++ toString result.id ++ " Description: " ++ result_data.description)
            (hmInsert (hmInsert (hmInsert (hmInsert []
              "perm" (get_permission_chars result_data.permByte))
              "gid" (Nat.repr result_data.gid))
              "uid" (Nat.repr result_data.uid))
              "ktype" (get_key_type result_data.ktype)))

/-- src/keyutils.rs: KeyutilsCredentialSearch::by: the dimension argument is
discarded and the session keyring is always searched. -/
def keyutilsBy (env : KeyutilsEnv) (_dim query : String) : CredentialSearchResult :=
  search_by_keyring env "session" query

/-- src/lib.rs: the attribute-line loop shared by list_all and list_max:
each inner pair is appended to the accumulated output as a key, colon,
space, value line. -/
def attrFold (kvs : InnerMap) (acc : String) : String :=
  kvs.foldl (fun a kv => a ++ kv.1 ++ ": " ++ kv.2 ++ "\n") acc

/-- src/lib.rs: List::list_all: on success, one block per outer entry, a
bare label line followed by the attribute lines; a failure propagates. -/
def list_all (result : CredentialSearchResult) : Except Error String :=
  match result with
  | .ok search_result =>
    .ok (search_result.foldl (fun acc e => attrFold e.2 (acc ++ e.1 ++ "\n")) "")
  | .error err => .error err

/-- src/lib.rs: the loop of List::list_max: each block opens with a label
line prefixed by the word Target, count (starting at 1) is incremented
after the block is emitted, and the loop breaks once count exceeds max. -/
def list_max_loop : OuterMap → Int → Int → String → String
  | [], _, _, out => out
  | e :: rest, count, mx, out =>
    let out' := attrFold e.2 (out ++ "Target: " ++ e.1 ++ "\n")
    if count + 1 > mx then out' else list_max_loop rest (count + 1) mx out'

/-- src/lib.rs: List::list_max: the loop over the success entries starting
with count 1; a failure propagates. -/
def list_max (result : CredentialSearchResult) (mx : Int) : Except Error String :=
  match result with
  | .ok search_result => .ok (list_max_loop search_result 1 mx "")
  | .error err => .error err

/-- src/lib.rs: List::list_credentials, dispatching on the Limit. -/
def list_credentials (search_result : CredentialSearchResult) (limit : Limit) :
    Except Error String :=
  match limit with
  | .All => list_all search_result
  | .Max mx => list_max search_result mx

/-- The records of the store whose selected field matches: the match set of
one mock search, in enumeration order. -/
def matchedOf (field : MockData → String) (is_match : String → Bool)
    (store : List MockData) : List MockData :=
  store.filter (fun credential => is_match (field credential))

/-- Closed form of the outer map built by the mock assembly loop: entry k
(1-based, newest first once assembled) carries the inner-map snapshot after
the k-th matched credential was written into the shared inner map. -/
def outerOf : List MockData → Nat → InnerMap → OuterMap
  | [], _, _ => []
  | r :: rest, c, prev =>
    outerOf rest (c + 1) (tripleInner r prev) ++ [(Nat.repr (c + 1), tripleInner r prev)]

/-- The shared inner map after the whole mock assembly loop. -/
def lastInner : List MockData → InnerMap → InnerMap
  | [], prev => prev
  | r :: rest, prev => lastInner rest (tripleInner r prev)

/-- The attribute lines of one rendered block: one key, colon, space, value
line per inner pair. -/
def attrBlock : InnerMap → String
  | [] => ""
  | kv :: rest => kv.1 ++ ": " ++ kv.2 ++ "\n" ++ attrBlock rest

/-- One rendered block of List::list_all: bare label line, then attributes. -/
def blockAll (e : String × InnerMap) : String :=
  e.1 ++ "\n" ++ attrBlock e.2

/-- One rendered block of List::list_max: label line prefixed with the word
Target, then attributes. -/
def blockMax (e : String × InnerMap) : String :=
  "Target: " ++ e.1 ++ "\n" ++ attrBlock e.2

/-- The full List::list_all rendering of an entry sequence. -/
def renderAll : OuterMap → String
  | [] => ""
  | e :: rest => blockAll e ++ renderAll rest

/-- The full List::list_max rendering of an entry sequence. -/
def renderMax : OuterMap → String
  | [] => ""
  | e :: rest => blockMax e ++ renderMax rest

/-- An inner map whose bindings are confined to the three mock attribute
keys: every other key misses. -/
def onlyThree (m : InnerMap) : Prop :=
  ∀ k : String, k ≠ "User" → k ≠ "Service" → k ≠ "Target" → List.lookup k m = none

lemma attrFold_spec (kvs : InnerMap) (acc : String) :
    attrFold kvs acc = acc ++ attrBlock kvs := by
  induction kvs generalizing acc with
  | nil => simp [attrFold, attrBlock]
  | cons kv rest ih =>
    simp only [attrFold, List.foldl_cons, attrBlock] at *
    rw [ih]
    simp [String.append_assoc]

lemma list_all_fold_spec (entries : OuterMap) (acc : String) :
    entries.foldl (fun acc e => attrFold e.2 (acc ++ e.1 ++ "\n")) acc
      = acc ++ renderAll entries := by
  induction entries generalizing acc with
  | nil => simp [renderAll]
  | cons e rest ih =>
    simp only [List.foldl_cons, renderAll, blockAll]
    rw [ih, attrFold_spec]
    simp [String.append_assoc]

lemma list_all_spec (entries : OuterMap) :
    list_all (.ok entries) = .ok (renderAll entries) := by
  simp [list_all, list_all_fold_spec, String.empty_append]

lemma list_max_loop_spec (entries : OuterMap) (c mx : Int) (out : String) :
    list_max_loop entries c mx out
      = out ++ renderMax (entries.take ((mx - c).toNat + 1)) := by
  induction entries generalizing c out with
  | nil => simp [list_max_loop, renderMax]
  | cons e rest ih =>
    simp only [list_max_loop]
    rw [attrFold_spec]
    by_cases hgt : c + 1 > mx
    · have h0 : (mx - c).toNat = 0 := by omega
      simp only [hgt, if_pos, h0, List.take_succ_cons, List.take_zero, renderMax, blockMax]
      rw [String.append_empty]
      simp [String.append_assoc]
    · have h1 : (mx - c).toNat = (mx - (c + 1)).toNat + 1 := by omega
      simp only [hgt, if_neg, not_false_iff, ih, h1, List.take_succ_cons, renderMax, blockMax]
      simp [String.append_assoc]

lemma list_max_spec (entries : OuterMap) (mx : Int) :
    list_max (.ok entries) mx = .ok (renderMax (entries.take ((mx - 1).toNat + 1))) := by
  simp [list_max, list_max_loop_spec, String.empty_append]

lemma searchLoop_spec (ms : List MockData) (c : Nat) (inner : InnerMap) (outer : OuterMap) :
    searchLoop ms c inner outer
      = (c + ms.length, lastInner ms inner, outerOf ms c inner ++ outer) := by
  induction ms generalizing c inner outer with
  | nil => simp [searchLoop, lastInner, outerOf]
  | cons r rest ih =>
    simp only [searchLoop, lastInner, outerOf, ih, hmInsert, List.length_cons,
      List.append_assoc, List.singleton_append, Prod.mk.injEq]
    exact ⟨by omega, trivial⟩

lemma outerOf_length (ms : List MockData) (c : Nat) (prev : InnerMap) :
    (outerOf ms c prev).length = ms.length := by
  induction ms generalizing c prev with
  | nil => rfl
  | cons r rest ih => simp [outerOf, ih]

lemma search_by_eq (field : MockData → String) (is_match : String → Bool)
    (store : List MockData) :
    search_by field is_match store
      = if matchedOf field is_match store = [] then .error .NoResults
        else .ok (outerOf (matchedOf field is_match store) 0 []) := by
  unfold search_by matchedOf
  simp only [searchLoop_spec, List.append_nil, Nat.zero_add]
  simp [List.length_eq_zero]

lemma outerOf_ne_nil (ms : List MockData) (c : Nat) (prev : InnerMap) (h : ms ≠ []) :
    outerOf ms c prev ≠ [] := by
  cases ms with
  | nil => exact absurd rfl h
  | cons r rest => simp [outerOf]

lemma infixOf_nil (l : List Char) : infixOf [] l = true := by
  cases l <;> simp [infixOf, List.isPrefixOf]

lemma ciContains_empty (hay : String) : ciContains hay "" = true := by
  simp [ciContains, asciiLowercase, infixOf_nil]

lemma scanUnclosed_no_open (l : List Char) (h : ∀ c ∈ l, c ≠ '[') :
    scanUnclosed l false = false := by
  induction l with
  | nil => rfl
  | cons c rest ih =>
    have hc : c ≠ '[' := h c (List.mem_cons_self c rest)
    simp only [scanUnclosed, if_neg, Bool.false_eq_true, hc, if_false]
    exact ih (fun d hd => h d (List.mem_cons_of_mem c hd))

lemma literal_no_bracket (q : String) (h : isLiteralPattern q = true) :
    ∀ c ∈ q.data, c ≠ '[' := by
  intro c hc
  have := (List.all_eq_true.mp h) c hc
  simp only [Bool.not_eq_true', metaChars] at this
  intro heq
  subst heq
  simp [List.contains] at this

lemma prefix_data (q : String) : ("(?i)" ++ q).data = '(' :: '?' :: 'i' :: ')' :: q.data := by
  cases q with
  | mk l => rfl

lemma regexNew_literal (q : String) (h : isLiteralPattern q = true) :
    regexNew ("(?i)" ++ q) = .ok (fun hay => ciContains hay q) := by
  have hscan : scanUnclosed ("(?i)" ++ q).data false = false := by
    rw [prefix_data]
    show scanUnclosed q.data false = false
    exact scanUnclosed_no_open q.data (literal_no_bracket q h)
  have hstrip : stripCI ("(?i)" ++ q) = q := by
    cases q with
    | mk l => rfl
  unfold regexNew
  rw [hscan, hstrip]
  simp

lemma tripleInner_lookup_user (r : MockData) (prev : InnerMap) :
    List.lookup "User" (tripleInner r prev) = some r.user := by
  simp [tripleInner, hmInsert, List.lookup]

lemma tripleInner_lookup_service (r : MockData) (prev : InnerMap) :
    List.lookup "Service" (tripleInner r prev) = some r.service := by
  simp [tripleInner, hmInsert, List.lookup]

lemma tripleInner_lookup_target (r : MockData) (prev : InnerMap) :
    List.lookup "Target" (tripleInner r prev) = some r.target := by
  simp [tripleInner, hmInsert, List.lookup]

lemma onlyThree_nil : onlyThree [] := by
  intro k _ _ _
  rfl

lemma onlyThree_triple (r : MockData) (prev : InnerMap) (h : onlyThree prev) :
    onlyThree (tripleInner r prev) := by
  intro k hu hs ht
  have hu' : (k == "User") = false := beq_eq_false_iff_ne.mpr hu
  have hs' : (k == "Service") = false := beq_eq_false_iff_ne.mpr hs
  have ht' : (k == "Target") = false := beq_eq_false_iff_ne.mpr ht
  simp only [tripleInner, hmInsert, List.lookup, hu', hs', ht']
  exact h k hu hs ht

lemma outerOf_rev_get (ms : List MockData) (i : Nat) (c : Nat) (prev : InnerMap)
    (h : i < ms.length) (hprev : onlyThree prev) :
    ∃ inner, (outerOf ms c prev).reverse[i]? = some (Nat.repr (c + 1 + i), inner) ∧
      List.lookup "User" inner = some (ms.get ⟨i, h⟩).user ∧
      List.lookup "Service" inner = some (ms.get ⟨i, h⟩).service ∧
      List.lookup "Target" inner = some (ms.get ⟨i, h⟩).target ∧
      onlyThree inner := by
  induction ms generalizing i c prev with
  | nil => exact absurd h (Nat.not_lt_zero i)
  | cons r rest ih =>
    rw [outerOf, List.reverse_append]
    cases i with
    | zero =>
      refine ⟨tripleInner r prev, ?_, tripleInner_lookup_user r prev,
        tripleInner_lookup_service r prev, tripleInner_lookup_target r prev,
        onlyThree_triple r prev hprev⟩
      simp
    | succ j =>
      have hj : j < rest.length := Nat.lt_of_succ_lt_succ h
      obtain ⟨inner, hget, hrest⟩ := ih j (c + 1) (tripleInner r prev) hj
        (onlyThree_triple r prev hprev)
      refine ⟨inner, ?_, hrest⟩
      have harith : c + 1 + 1 + j = c + 1 + (j + 1) := by omega
      simp only [List.reverse_singleton, List.singleton_append, List.getElem?_cons_succ]
      rw [← harith]
      exact hget

lemma winAssemble_ok_length (l : List WinCredential) (c : Nat) (outer : OuterMap)
    (es : OuterMap) (h : winAssemble l c outer = .ok es) :
    es.length = l.length + outer.length := by
  induction l generalizing c outer with
  | nil =>
    simp only [winAssemble] at h
    cases h
    simp
  | cons r rest ih =>
    simp only [winAssemble] at h
    cases hct : match_cred_type r.cred_type with
    | error e => rw [hct] at h; exact absurd h (by simp)
    | ok ctype =>
      rw [hct] at h
      cases hpt : match_persist_type r.persist with
      | error e => rw [hpt] at h; exact absurd h (by simp)
      | ok ptype =>
        rw [hpt] at h
        have := ih _ _ h
        simp only [hmInsert, List.length_cons] at this
        simp only [List.length_cons]
        omega

lemma winSearch_ok_ne_nil (creds : List WinCredential) (t : WinSearchType) (q : String)
    (results : List WinCredential) (h : winSearch creds t q = .ok results) :
    results ≠ [] := by
  unfold winSearch at h
  cases hr : regexNew ("(?i)" ++ q) with
  | error e => rw [hr] at h; cases h
  | ok m =>
    rw [hr] at h
    simp only at h
    by_cases he : (creds.filter fun c => m (winHaystack t c)).isEmpty = true
    · rw [if_pos he] at h; cases h
    · rw [if_neg he] at h
      cases h
      simp_all [List.isEmpty_iff]

lemma win_search_type_ok_ne_nil (creds : List WinCredential) (dim query : String)
    (results : List WinCredential) (h : win_search_type creds dim query = .ok results) :
    results ≠ [] := by
  unfold win_search_type at h
  split at h
  · exact winSearch_ok_ne_nil _ _ _ _ h
  · exact winSearch_ok_ne_nil _ _ _ _ h
  · exact winSearch_ok_ne_nil _ _ _ _ h
  · cases h

lemma search_by_cases (field : MockData → String) (is_match : String → Bool)
    (store : List MockData) :
    (search_by field is_match store = .error .NoResults
      ↔ matchedOf field is_match store = [])
    ∧ ∀ es, search_by field is_match store = .ok es
        → es = outerOf (matchedOf field is_match store) 0 [] := by
  constructor
  · constructor
    · intro h
      by_contra hne
      rw [search_by_eq, if_neg hne] at h
      cases h
    · intro h
      rw [search_by_eq, if_pos h]
  · intro es h
    by_cases hm : matchedOf field is_match store = []
    · rw [search_by_eq, if_pos hm] at h
      cases h
    · rw [search_by_eq, if_neg hm] at h
      injection h with h'
      exact h'.symm

lemma winSearch_cases (creds : List WinCredential) (t : WinSearchType) (q : String)
    (m : String → Bool) (hre : regexNew ("(?i)" ++ q) = .ok m) :
    (winSearch creds t q = .error .NoResults
      ↔ creds.filter (fun c => m (winHaystack t c)) = [])
    ∧ ∀ res, winSearch creds t q = .ok res
        → res = creds.filter (fun c => m (winHaystack t c)) := by
  unfold winSearch
  rw [hre]
  simp only
  by_cases he : (creds.filter fun c => m (winHaystack t c)) = []
  · have he' : (creds.filter fun c => m (winHaystack t c)).isEmpty = true := by
      simp [he]
    rw [if_pos he']
    constructor
    · simp [he]
    · intro res h
      cases h
  · have he' : ¬ (creds.filter fun c => m (winHaystack t c)).isEmpty = true := by
      simp [List.isEmpty_iff, he]
    rw [if_neg he']
    constructor
    · constructor
      · intro h
        cases h
      · intro h
        exact absurd h he
    · intro res h
      injection h with h'
      exact h'.symm

/-- Claim C1, counterexample: the claim quantifies over every backend, but
the macOS backend returns an empty success map (not the NoResults failure)
when the native item search succeeds with zero items, as its search
function folds whatever list the native call produced and returns the outer
map unconditionally. -/
theorem macos_empty_success_counterexample :
    macosSearch "label" (fun _ => .ok []) = .ok [] := rfl

/-- Claim C1 (amended): for the enumerate-and-match backends (mock and
Windows) the NoResults failure is returned exactly when zero records
matched and a successful outer map is never empty; the macOS backend does
not share this invariant, returning an empty success map when the native
search succeeds with zero items. -/
theorem noResults_iff_zero_matched :
    (∀ (field : MockData → String) (is_match : String → Bool) (store : List MockData),
      (search_by field is_match store = .error .NoResults
        ↔ matchedOf field is_match store = [])
      ∧ ∀ es, search_by field is_match store = .ok es → es ≠ [])
    ∧ (∀ (creds : List WinCredential) (t : WinSearchType) (q : String) (m : String → Bool),
        regexNew ("(?i)" ++ q) = .ok m →
        (winSearch creds t q = .error .NoResults
          ↔ creds.filter (fun c => m (winHaystack t c)) = []))
    ∧ (∀ (creds : List WinCredential) (dim q : String) (es : OuterMap),
        winBy creds dim q = .ok es → es ≠ []) := by
  refine ⟨?_, ?_, ?_⟩
  · intro field is_match store
    refine ⟨(search_by_cases field is_match store).1, ?_⟩
    intro es hes
    have h' := (search_by_cases field is_match store).2 es hes
    by_cases hm : matchedOf field is_match store = []
    · rw [(search_by_cases field is_match store).1.mpr hm] at hes
      cases hes
    · rw [h']
      exact outerOf_ne_nil _ _ _ hm
  · intro creds t q m hre
    exact (winSearch_cases creds t q m hre).1
  · intro creds dim q es h
    unfold winBy at h
    cases hst : win_search_type creds dim q with
    | error e =>
      rw [hst] at h
      cases h
    | ok results =>
      rw [hst] at h
      have hne := win_search_type_ok_ne_nil _ _ _ _ hst
      have hlen := winAssemble_ok_length _ _ _ _ h
      intro hnil
      subst hnil
      simp only [List.length_nil, List.length_cons] at hlen
      exact hne (List.length_eq_zero.mp (by omega))

/-- Claim C1, witness: the mock backend on an empty store returns the
NoResults failure. -/
theorem noResults_iff_zero_matched_witness :
    search_by MockData.user (fun _ => true) ([] : List MockData) = .error .NoResults :=
  (noResults_iff_zero_matched.1 MockData.user (fun _ => true) []).1.mpr rfl

/-- Claim C2, counterexample: rendering a one-entry success with
Limit::Max(0) emits one labeled block and a non-empty listing, because the
loop counter starts at 1 and the bound is only checked after a block is
emitted; the claim says Max(0) emits zero blocks and an empty listing. -/
theorem max_zero_emits_one_block_counterexample :
    list_max (.ok [("1", [("User", "bob")])]) 0 = .ok "Target: 1\nUser: bob\n"
    ∧ ("Target: 1\nUser: bob\n" : String) ≠ "" :=
  ⟨rfl, by decide⟩

/-- Claim C2 (amended): for every n ≥ 0, rendering a success with
Limit::Max(n) emits exactly the blocks of the first max(n,1) outer entries,
so at most n blocks when n ≥ 1; Limit::Max(0) behaves like Max(1) and on a
non-empty result emits exactly the first block rather than zero blocks. -/
theorem list_max_block_count :
    (∀ (entries : OuterMap) (n : Int), 0 ≤ n →
      list_max (.ok entries) n = .ok (renderMax (entries.take (max n.toNat 1))))
    ∧ ∀ (e : String × InnerMap) (rest : OuterMap),
        list_max (.ok (e :: rest)) 0 = .ok (blockMax e) := by
  constructor
  · intro entries n hn
    rw [list_max_spec]
    have h : (n - 1).toNat + 1 = max n.toNat 1 := by omega
    rw [h]
  · intro e rest
    rw [list_max_spec]
    have h : ((0 : Int) - 1).toNat + 1 = 1 := by omega
    rw [h]
    simp [renderMax, String.append_empty]

/-- Claim C2, witness: rendering the empty success with Limit::Max(2)
agrees with the first-max(2,1)-entries rendering. -/
theorem list_max_block_count_witness :
    list_max (.ok ([] : OuterMap)) 2
      = .ok (renderMax (([] : OuterMap).take (max (Int.toNat 2) 1))) :=
  list_max_block_count.1 [] 2 (by decide)

/-- Claim C3: a query whose pattern fails regex compilation makes the mock
search (under every dimension string) and the Windows search (under every
dispatched search type) fail with the SearchError variant carrying the
parser diagnostic; no fallback matching and no partial result is
produced. -/
theorem invalid_regex_yields_search_error :
    ∀ (query err : String), regexNew ("(?i)" ++ query) = .error err →
      (∀ (store : List MockData) (dim : String),
        mockBy store dim query = .error (.SearchError ("Regex Error, " ++ err)))
      ∧ (∀ (creds : List WinCredential) (t : WinSearchType),
        winSearch creds t query = .error (.SearchError ("Regex Error, " ++ err))) := by
  intro query err h
  constructor
  · intro store dim
    simp only [mockBy, h]
  · intro creds t
    simp only [winSearch, h]

/-- Claim C3, witness: the unbalanced character class query fails the mock
search with the parser diagnostic wrapped in SearchError. -/
theorem invalid_regex_yields_search_error_witness :
    mockBy [] "user" "["
      = .error (.SearchError ("Regex Error, " ++ "regex parse error: unclosed character class")) :=
  (invalid_regex_yields_search_error "[" "regex parse error: unclosed character class" rfl).1
    [] "user"

/-- Claim C7: the presenter applied to an already-failed search result
propagates the same failure unchanged, producing no textual output, under
both the All and the Max limit. -/
theorem failure_propagates_unchanged :
    ∀ (e : Error) (limit : Limit), list_credentials (.error e) limit = .error e := by
  intro e limit
  cases limit <;> rfl

/-- Claim C4: on a non-empty store and a valid dimension, a mock search
with the empty query succeeds and its outer map has one entry per stored
record, since the empty pattern matches every record. -/
theorem empty_query_matches_all :
    ∀ (store : List MockData) (dim : String),
      store ≠ [] →
      asciiLowercase dim ∈ (["user", "service", "target"] : List String) →
      ∃ es, mockBy store dim "" = .ok es ∧ es.length = store.length := by
  intro store dim hne hdim
  have hre : regexNew ("(?i)" ++ "") = .ok (fun hay => ciContains hay "") :=
    regexNew_literal "" (by decide)
  have hfilter : ∀ field : MockData → String,
      matchedOf field (fun hay => ciContains hay "") store = store := by
    intro field
    unfold matchedOf
    rw [List.filter_eq_self]
    intro a _
    exact ciContains_empty _
  simp only [List.mem_cons, List.mem_singleton, List.not_mem_nil, or_false] at hdim
  rcases hdim with h | h | h
  · have hd : mockBy store dim "" = search_by MockData.user (fun hay => ciContains hay "") store := by
      simp only [mockBy, hre, h]
    refine ⟨outerOf store 0 [], ?_, outerOf_length store 0 []⟩
    rw [hd, search_by_eq, hfilter, if_neg hne]
  · have hd : mockBy store dim "" = search_by MockData.service (fun hay => ciContains hay "") store := by
      simp only [mockBy, hre, h]
    refine ⟨outerOf store 0 [], ?_, outerOf_length store 0 []⟩
    rw [hd, search_by_eq, hfilter, if_neg hne]
  · have hd : mockBy store dim "" = search_by MockData.target (fun hay => ciContains hay "") store := by
      simp only [mockBy, hre, h]
    refine ⟨outerOf store 0 [], ?_, outerOf_length store 0 []⟩
    rw [hd, search_by_eq, hfilter, if_neg hne]

/-- Claim C4, witness: the empty query on a one-record store succeeds with
a one-entry map. -/
theorem empty_query_matches_all_witness :
    ∃ es, mockBy [⟨"svcA", "alpha", "bob"⟩] "user" "" = .ok es
      ∧ es.length = ([⟨"svcA", "alpha", "bob"⟩] : List MockData).length :=
  empty_query_matches_all [⟨"svcA", "alpha", "bob"⟩] "user" (by decide) (by decide)

/-- Claim C5: for a literal query (no regex metacharacters), the mock
search under each of its three dimensions and the Windows search under
each search type select exactly the records whose chosen attribute
contains the query as a case-insensitive unanchored substring, keeping
enumeration order; the outcome is NoResults exactly when that selection is
empty. -/
theorem literal_query_ci_substring :
    ∀ (query : String), isLiteralPattern query = true →
      (∀ store : List MockData,
        (mockBy store "user" query = .error .NoResults
          ↔ store.filter (fun c => ciContains c.user query) = [])
        ∧ (∀ es, mockBy store "user" query = .ok es
            → es = outerOf (store.filter (fun c => ciContains c.user query)) 0 [])
        ∧ (mockBy store "service" query = .error .NoResults
          ↔ store.filter (fun c => ciContains c.service query) = [])
        ∧ (∀ es, mockBy store "service" query = .ok es
            → es = outerOf (store.filter (fun c => ciContains c.service query)) 0 [])
        ∧ (mockBy store "target" query = .error .NoResults
          ↔ store.filter (fun c => ciContains c.target query) = [])
        ∧ (∀ es, mockBy store "target" query = .ok es
            → es = outerOf (store.filter (fun c => ciContains c.target query)) 0 []))
      ∧ (∀ (creds : List WinCredential) (t : WinSearchType),
          (winSearch creds t query = .error .NoResults
            ↔ creds.filter (fun c => ciContains (winHaystack t c) query) = [])
          ∧ ∀ res, winSearch creds t query = .ok res
              → res = creds.filter (fun c => ciContains (winHaystack t c) query)) := by
  intro query h
  have hre : regexNew ("(?i)" ++ query) = .ok (fun hay => ciContains hay query) :=
    regexNew_literal query h
  constructor
  · intro store
    have hu : mockBy store "user" query
        = search_by MockData.user (fun hay => ciContains hay query) store := by
      simp only [mockBy, hre]
      rfl
    have hs : mockBy store "service" query
        = search_by MockData.service (fun hay => ciContains hay query) store := by
      simp only [mockBy, hre]
      rfl
    have ht : mockBy store "target" query
        = search_by MockData.target (fun hay => ciContains hay query) store := by
      simp only [mockBy, hre]
      rfl
    rw [hu, hs, ht]
    exact ⟨(search_by_cases _ _ _).1, (search_by_cases _ _ _).2,
      (search_by_cases _ _ _).1, (search_by_cases _ _ _).2,
      (search_by_cases _ _ _).1, (search_by_cases _ _ _).2⟩
  · intro creds t
    exact winSearch_cases creds t query (fun hay => ciContains hay query) hre

/-- Claim C5, witness: the literal query bob on the empty store yields
NoResults, its case-insensitive match set being empty. -/
theorem literal_query_ci_substring_witness :
    mockBy [] "user" "bob" = .error .NoResults :=
  ((literal_query_ci_substring "bob" (by decide)).1 []).1.mpr rfl

/-- Claim C6, counterexample: the keyutils backend ignores the dimension
argument of by and always searches the session keyring, so the call with
the bogus-dimension string succeeds with a non-empty map whenever the
native search finds a key, contradicting the claim that every backend
rejects an invalid dimension. -/
theorem keyutils_accepts_bogus_dimension :
    keyutilsBy
      { ringFromSpecialId := .ok ()
        ringSearch := fun _ => .ok
          { id := 7
            metadata := .ok
              { description := "bob-key", gid := 0, uid := 0, permByte := 0, ktype := .User } } }
      "bogus-dimension" "bob"
      = .ok [("ID: 7 Description: bob-key",
          [("ktype", "User"), ("uid", "0"), ("gid", "0"), ("perm", "--------")])] := rfl

/-- Claim C6 (amended): for the dimension-validating backends, a dimension
outside the valid set makes the mock search fail with SearchError or the
Unexpected variant and the Windows search fail with its fixed SearchError,
never a success; the keyutils backend instead ignores the dimension and
can succeed for any dimension string. -/
theorem invalid_dimension_never_success :
    (∀ (store : List MockData) (dim query : String),
      asciiLowercase dim ∉ (["user", "service", "target"] : List String) →
      (∀ es, mockBy store dim query ≠ .ok es)
      ∧ ((∃ msg, mockBy store dim query = .error (.SearchError msg))
         ∨ mockBy store dim query = .error (.Unexpected "Mock by parameter")))
    ∧ (∀ (creds : List WinCredential) (dim query : String),
      asciiLowercase dim ∉ (["user", "service", "target"] : List String) →
      winBy creds dim query
        = .error (.SearchError "Invalid search parameter, not Target, Service, or User")) := by
  constructor
  · intro store dim query hdim
    simp only [List.mem_cons, List.mem_singleton, List.not_mem_nil, or_false, not_or] at hdim
    obtain ⟨h1, h2, h3⟩ := hdim
    cases hre : regexNew ("(?i)" ++ query) with
    | error e =>
      have hv : mockBy store dim query = .error (.SearchError ("Regex Error, " ++ e)) := by
        simp only [mockBy, hre]
      refine ⟨?_, Or.inl ⟨_, hv⟩⟩
      intro es hok
      rw [hv] at hok
      cases hok
    | ok m =>
      have hv : mockBy store dim query = .error (.Unexpected "Mock by parameter") := by
        simp only [mockBy, hre]
      refine ⟨?_, Or.inr hv⟩
      intro es hok
      rw [hv] at hok
      cases hok
  · intro creds dim query hdim
    simp only [List.mem_cons, List.mem_singleton, List.not_mem_nil, or_false, not_or] at hdim
    obtain ⟨h1, h2, h3⟩ := hdim
    have hst : win_search_type creds dim query
        = .error (.SearchError "Invalid search parameter, not Target, Service, or User") := by
      unfold win_search_type
      split <;> simp_all
    simp only [winBy, hst]

/-- Claim C6, witness: the Windows backend rejects the bogus-dimension
string with its fixed SearchError. -/
theorem invalid_dimension_never_success_witness :
    winBy [] "bogus-dimension" "bob"
      = .error (.SearchError "Invalid search parameter, not Target, Service, or User") :=
  invalid_dimension_never_success.2 [] "bogus-dimension" "bob" (by decide)

/-- Claim C8, counterexample: the same one-entry success renders its block
with a bare label line under Limit::All but with a Target-prefixed label
line under Limit::Max, so the block format is not identical across the two
limit variants. -/
theorem render_format_differs :
    list_all (.ok [("1", [("User", "bob")])]) = .ok "1\nUser: bob\n"
    ∧ list_max (.ok [("1", [("User", "bob")])]) 5 = .ok "Target: 1\nUser: bob\n"
    ∧ ("Target: 1\nUser: bob\n" : String) ≠ "1\nUser: bob\n" :=
  ⟨rfl, rfl, by decide⟩

/-- Claim C8 (amended): under Limit::All every block is one bare label line
followed by one key, colon, space, value line per attribute; under
Limit::Max the blocks have the same shape except that the label line is
prefixed with the word Target and a colon, so the two limit variants do not
share one fixed block format. -/
theorem render_block_format :
    (∀ entries : OuterMap, list_all (.ok entries) = .ok (renderAll entries))
    ∧ (∀ (entries : OuterMap) (n : Int),
        list_max (.ok entries) n = .ok (renderMax (entries.take ((n - 1).toNat + 1))))
    ∧ (∀ (lbl : String) (inner : InnerMap),
        renderAll [(lbl, inner)] = lbl ++ "\n" ++ attrBlock inner)
    ∧ (∀ (lbl : String) (inner : InnerMap),
        renderMax [(lbl, inner)] = "Target: " ++ lbl ++ "\n" ++ attrBlock inner) := by
  refine ⟨fun entries => list_all_spec entries, fun entries n => list_max_spec entries n, ?_, ?_⟩
  · intro lbl inner
    simp [renderAll, blockAll, String.append_empty]
  · intro lbl inner
    simp [renderMax, blockMax, String.append_empty, String.append_assoc]

/-- Claim C9: two mock searches over equal (unmodified) stores with the
same dimension and query return equal results: the same outcome kind, and
on success identical key sequences and identical attribute maps under
lookup. -/
theorem search_idempotent :
    ∀ (s1 s2 : List MockData) (dim query : String), s1 = s2 →
      mockBy s1 dim query = mockBy s2 dim query
      ∧ ∀ es1 es2, mockBy s1 dim query = .ok es1 → mockBy s2 dim query = .ok es2 →
          es1.map Prod.fst = es2.map Prod.fst
          ∧ ∀ k : String, List.lookup k es1 = List.lookup k es2 := by
  intro s1 s2 dim query h
  subst h
  refine ⟨rfl, ?_⟩
  intro es1 es2 h1 h2
  rw [h1] at h2
  injection h2 with h'
  subst h'
  exact ⟨rfl, fun _ => rfl⟩

/-- Claim C9, witness: two identical concrete mock searches agree. -/
theorem search_idempotent_witness :
    mockBy [] "user" "x" = mockBy [] "user" "x" :=
  (search_idempotent [] [] "user" "x" rfl).1

/-- Claim C10: a successful mock search with n matched credentials has an
outer map whose keys, read from the oldest insertion (the reversed
association list), are exactly the decimal strings 1 through n, and whose
i-th entry's inner map binds exactly the keys User, Service and Target to
the fields of the i-th matched credential, every other key missing. -/
theorem mock_result_shape :
    ∀ (field : MockData → String) (is_match : String → Bool)
      (store : List MockData) (es : OuterMap),
      search_by field is_match store = .ok es →
      es.length = (matchedOf field is_match store).length
      ∧ ∀ i (h : i < (matchedOf field is_match store).length),
          ∃ inner, es.reverse[i]? = some (Nat.repr (i + 1), inner)
            ∧ List.lookup "User" inner
                = some ((matchedOf field is_match store).get ⟨i, h⟩).user
            ∧ List.lookup "Service" inner
                = some ((matchedOf field is_match store).get ⟨i, h⟩).service
            ∧ List.lookup "Target" inner
                = some ((matchedOf field is_match store).get ⟨i, h⟩).target
            ∧ ∀ k : String, k ≠ "User" → k ≠ "Service" → k ≠ "Target" →
                List.lookup k inner = none := by
  intro field is_match store es h
  have hes : es = outerOf (matchedOf field is_match store) 0 [] :=
    (search_by_cases field is_match store).2 es h
  subst hes
  constructor
  · exact outerOf_length _ 0 []
  · intro i hi
    obtain ⟨inner, hget, hu, hs, ht, honly⟩ :=
      outerOf_rev_get (matchedOf field is_match store) i 0 [] hi onlyThree_nil
    have harith : (0 : Nat) + 1 + i = i + 1 := by omega
    rw [harith] at hget
    exact ⟨inner, hget, hu, hs, ht, honly⟩

/-- Claim C10, witness: a concrete one-match search has a one-entry outer
map, matching the length of its match set. -/
theorem mock_result_shape_witness :
    ([("1", [("Target", "alpha"), ("Service", "svcA"), ("User", "bob")])] : OuterMap).length
      = (matchedOf MockData.user (fun s => s == "bob") [⟨"svcA", "alpha", "bob"⟩]).length :=
  (mock_result_shape MockData.user (fun s => s == "bob") [⟨"svcA", "alpha", "bob"⟩] _ rfl).1

end KeyringSearch

